import Mathlib

/-!
# Verification of the smart-postgres read-only query pipeline

A shallow embedding, in Lean 4, of the safety-relevant parts of the
smart-postgres repository:

* the query-cleaning and Read-Only Guard logic of
  `src/lib/db-client.ts` (`executeQuery`), including the JS regex scan
  for write operations hidden inside common-table expressions;
* the pagination / aggregate-detection behaviour of the same function;
* the raw `POST /execute-sql` handler (`pages/api/execute-sql`);
* the `ERROR:` sentinel check in the `POST /query` route handler;
* the LLM input validation of `src/lib/llm.ts` (`identifyRequiredInputs`);
* the conversation context manager of `src/lib/chatHistory.ts`
  (`addQueryToContext`, `findRelevantPreviousContext` scoring);
* the schema cache of `src/lib/schema-cache.ts`.

Strings are modelled as `List Char` (`Chars`) so that every string
operation the TypeScript source performs (slicing, `indexOf`,
`startsWith`, `trim`, `toLowerCase`, and the specific regular
expressions it uses) can be given an executable, kernel-reducible
definition.  The database itself is external to the repository, so the
result set of a statement is passed in as an explicit list of rows; the
semantics of the two wrapper queries the executor builds
(`WITH user_query AS (stmt) SELECT COUNT(*) ...` and
`... LIMIT/OFFSET ...`) is the usual one: the count of the inner rows,
and the `drop`/`take` window of the inner rows.
-/

abbrev Chars := List Char

/-- JS `\s` / `trim` whitespace, restricted to the ASCII whitespace
characters that can occur in the SQL strings handled here. -/
def isWsChar (c : Char) : Bool :=
  c = ' ' || c = '\t' || c = '\n' || c = '\r' || c = '\x0b' || c = '\x0c'

/-- JS `\w`: ASCII letters, digits and underscore. -/
def isWordChar (c : Char) : Bool :=
  c.isAlphanum || c = '_'

/-- JS regex `.` (without the `s` flag) matches anything but a line
terminator; for the ASCII strings at hand, anything but `\n` / `\r`. -/
def isRegexDot (c : Char) : Bool :=
  !(c = '\n' || c = '\r')

def trimLeftCh (s : Chars) : Chars := s.dropWhile isWsChar

def trimRightCh (s : Chars) : Chars := (s.reverse.dropWhile isWsChar).reverse

/-- JS `String.prototype.trim`. -/
def trimCh (s : Chars) : Chars := trimRightCh (trimLeftCh s)

/-- JS `String.prototype.toLowerCase` (ASCII). -/
def toLowerCh (s : Chars) : Chars := s.map Char.toLower

/-- Tests whether the first list is a prefix of the second
(JS `String.prototype.startsWith`). -/
def startsWithCh : Chars → Chars → Bool
  | [], _ => true
  | _ :: _, [] => false
  | p :: ps, c :: cs => p = c && startsWithCh ps cs

/-- First index at which `pat` occurs in `s` (JS `String.prototype.indexOf`). -/
def indexOfCh (pat : Chars) : Chars → Option Nat
  | [] => if pat.isEmpty then some 0 else none
  | c :: cs =>
    if startsWithCh pat (c :: cs) then some 0
    else (indexOfCh pat cs).map (· + 1)

/-- Length of the leading whitespace run. -/
def wsRun (s : Chars) : Nat := (s.takeWhile isWsChar).length

def chStr (s : Chars) : String := String.mk s

/-! ## Query cleaning (`src/lib/db-client.ts`, `executeQuery`, lines 13–23)

The source first strips a markdown code fence — when the raw query
starts with three backticks it removes an opening fence (three
backticks, an optional language word, a newline), removes a closing
fence (a newline followed by three backticks at the end) and trims —
and then unconditionally removes trailing semicolons (the regex:
one-or-more semicolons followed by trailing whitespace, anchored at the
end) and trims again. -/

/-- Model of `replace` with the anchored pattern `^` three backticks
`(\w+)?\n`: it matches exactly when the three backticks are followed by a
(possibly empty) run of word characters and then a newline; greedy
backtracking over the optional word group cannot stop short of the
maximal run because a shorter run is followed by a word character, never
a newline.  Only called when the query starts with three backticks. -/
def stripOpenFence (q : Chars) : Chars :=
  let afterTicks := q.drop 3
  let w := (afterTicks.takeWhile isWordChar).length
  match afterTicks.drop w with
  | '\n' :: rest => rest
  | _ => q

/-- Model of `replace` with the pattern: newline, three backticks, end
anchor — drop that four-character suffix when present. -/
def stripCloseFence (q : Chars) : Chars :=
  if startsWithCh ['`', '`', '`', '\n'] q.reverse then (q.reverse.drop 4).reverse
  else q

/-- Model of `replace` with the pattern `;+` whitespace-run, end anchor:
the leftmost (hence longest such) match is the trailing whitespace run
together with the semicolon run immediately before it, provided that
semicolon run is non-empty; the match is removed. -/
def stripTrailSemis (q : Chars) : Chars :=
  let rws := q.reverse.takeWhile isWsChar
  let core := q.reverse.drop rws.length
  let rsemi := core.takeWhile (· = ';')
  if rsemi.isEmpty then q else (core.drop rsemi.length).reverse

/-- The cleaning pipeline of `executeQuery` in `db-client.ts`: strip a
markdown code fence when the query starts with one, then strip trailing
semicolons and trim. -/
def cleanSql (q : Chars) : Chars :=
  let fenced :=
    if startsWithCh ['`', '`', '`'] q then
      trimCh (stripCloseFence (stripOpenFence q))
    else q
  trimCh (stripTrailSemis fenced)

/-- Lower-cased cleaned query, the form every guard check runs on
(`normalizedQuery` in the source). -/
def normalizeQuery (q : String) : Chars := toLowerCh (cleanSql q.data)

/-! ## The Read-Only Guard (`src/lib/db-client.ts`, lines 29–74)

The disallowed keyword list and the check that the normalized query, or
the body of some common-table expression in it, starts with a keyword
followed by a space. -/

/-- Model of the `writeOperations` array of the source, verbatim. -/
def writeOperations : List Chars :=
  [ "delete".data, "insert".data, "update".data, "truncate".data,
    "create".data, "alter".data, "drop".data, "grant".data,
    "revoke".data, "lock".data, "vacuum".data, "copy".data,
    "refresh materialized view".data, "merge".data, "call".data,
    "do".data ]

/-- Whether the normalized query starts with some disallowed keyword
followed by a space (the first branch of the guard). -/
def startsWithWriteOp (nq : Chars) : Bool :=
  writeOperations.any fun op => startsWithCh (op ++ [' ']) nq

/-! ### The CTE regex

The guard scans the text after the first occurrence of the five
characters `with ` with the global JS regex: word-run, whitespace-run,
an optional parenthesized group (lazy dot-star inside), whitespace-run,
the literal `as`, whitespace-run, an opening parenthesis.  The matcher
below reproduces the JS backtracking order: the word-run is greedy, the
optional group is tried before its absence, the lazy dot-star grows one
character at a time, and a whitespace-run followed by a non-whitespace
literal can only succeed at its maximal extent. -/

/-- Offsets `d` such that the character at offset `d` is a closing
parenthesis and every character before it is matched by the regex dot
(no line terminator); in increasing order, the order in which the lazy
dot-star proposes them. -/
def closeParenOffsets : Chars → List Nat
  | [] => []
  | c :: rest =>
    if c = ')' then 0 :: (closeParenOffsets rest).map (· + 1)
    else if isRegexDot c then (closeParenOffsets rest).map (· + 1)
    else []

/-- Matches the suffix of the pattern after the optional group:
whitespace-run, `as`, whitespace-run, `(` — returns the number of
characters consumed.  Since neither `a` nor `(` is whitespace, only the
maximal whitespace runs can be followed by the required literals, so no
backtracking is needed here. -/
def asTailMatch (cs : Chars) : Option Nat :=
  let m2 := wsRun cs
  let r := cs.drop m2
  if startsWithCh "as".data r then
    let r2 := r.drop 2
    let m3 := wsRun r2
    match r2.drop m3 with
    | '(' :: _ => some (m2 + 2 + m3 + 1)
    | _ => none
  else none

/-- Matches whitespace-run, optional parenthesized group, then the
`as (` tail, at the start of `cs`; returns characters consumed.  The
optional group is greedy: every candidate extent of the lazy dot-star
is tried (in increasing order) before the group is dropped. -/
def tailMatch (cs : Chars) : Option Nat :=
  let m1 := wsRun cs
  let rest := cs.drop m1
  let viaGroup : Option Nat :=
    match rest with
    | '(' :: afterParen =>
        (closeParenOffsets afterParen).findSome? fun d =>
          (asTailMatch (afterParen.drop (d + 1))).map fun t => m1 + 1 + (d + 1) + t
    | _ => none
  match viaGroup with
  | some n => some n
  | none => (asTailMatch rest).map (m1 + ·)

/-- Attempts a match of the whole CTE pattern at the start of `cs`:
the greedy word-run is tried from its maximal length down to one
character, the first success winning, as in JS backtracking. -/
def cteMatchHere (cs : Chars) : Option Nat :=
  let w := (cs.takeWhile isWordChar).length
  ((List.range w).map fun j => w - j).findSome? fun k =>
    (tailMatch (cs.drop k)).map (k + ·)

/-- Model of the global-flag match: scan left to right; record each
leftmost match and resume after it; on failure advance one character.
The fuel starts at the length of the string, which suffices because
every successful match consumes at least one character. -/
def cteMatchesAux : Nat → Chars → List Chars
  | 0, _ => []
  | _ + 1, [] => []
  | fuel + 1, c :: rest =>
    match cteMatchHere (c :: rest) with
    | some len => (c :: rest).take len :: cteMatchesAux fuel ((c :: rest).drop len)
    | none => cteMatchesAux fuel rest

/-- All matches of the CTE pattern in the text, in order (model of the
JS `match` call with the global flag). -/
def cteMatches (cs : Chars) : List Chars := cteMatchesAux cs.length cs

/-- The CTE branch of the guard: if the normalized query contains
`with `, match the CTE pattern in the text after it; for each match,
the text after the first occurrence of the matched substring, trimmed,
must not start with a disallowed keyword followed by a space.  This is
the source verbatim, including its use of `indexOf` on the matched
substring (not the match position). -/
def cteHasWriteOp (nq : Chars) : Bool :=
  match indexOfCh "with ".data nq with
  | none => false
  | some withIndex =>
    let afterWith := nq.drop (withIndex + 5)
    (cteMatches afterWith).any fun cte =>
      let cteContent :=
        match indexOfCh cte afterWith with
        | some j => afterWith.drop (j + cte.length)
        | none => []
      writeOperations.any fun wop =>
        startsWithCh (wop ++ [' ']) (trimCh cteContent)

/-- The full guard of the source: for some disallowed keyword, the
normalized query starts with it, or (independently of the keyword being
iterated, exactly as in the source) the CTE scan finds one. -/
def hasWriteOperation (nq : Chars) : Bool :=
  writeOperations.any fun op =>
    startsWithCh (op ++ [' ']) nq || cteHasWriteOp nq

/-- The error message thrown by the guard. -/
def writeOpErrorMsg : String :=
  "Write operations are not allowed in read-only mode. Only SELECT and read-only operations are permitted."

/-! ## Aggregate detection and the paginated executor
(`src/lib/db-client.ts`, lines 76–130)

The aggregate test is the JS regex, case-insensitive with word
boundaries: one of `count`, `sum`, `avg`, `min`, `max`, or `group`
followed by at least one whitespace character and `by`.  The executor
runs an aggregate query once, unwrapped; a non-aggregate query is
wrapped in a counting CTE to obtain the total and in a LIMIT/OFFSET
CTE to obtain the requested page. -/

/-- Whether the first character, if any, is a word character (used for
the word-boundary checks of the aggregate regex). -/
def headIsWord (cs : Chars) : Bool :=
  match cs with
  | [] => false
  | c :: _ => isWordChar c

/-- Whether one of the aggregate alternatives matches at the start of
`cs`, with a word boundary before (encoded by `prevIsWord`) and after.
For the `group` whitespace `by` alternative the whitespace run must be
non-empty and, being followed by the literal `by`, is necessarily
maximal. -/
def aggAlternativeAt (prevIsWord : Bool) (cs : Chars) : Bool :=
  if prevIsWord then false
  else
    (["count".data, "sum".data, "avg".data, "min".data, "max".data].any fun kw =>
      startsWithCh kw cs && !headIsWord (cs.drop kw.length))
    ||
    (startsWithCh "group".data cs &&
      (let r := cs.drop 5
       let w := wsRun r
       decide (0 < w) && startsWithCh "by".data (r.drop w) &&
         !headIsWord (r.drop (w + 2))))

/-- Scan of every position of the string for an aggregate keyword,
tracking whether the previous character was a word character. -/
def aggScan : Bool → Chars → Bool
  | _, [] => false
  | prevIsWord, c :: rest =>
    aggAlternativeAt prevIsWord (c :: rest) || aggScan (isWordChar c) rest

/-- Model of the `isAggregateQuery` test of the source, applied (as in
the source) to the already lower-cased normalized query, which makes
the case-insensitive flag moot. -/
def isAggregateQuery (nq : Chars) : Bool := aggScan false nq

/-- The fixed page size of `db-client.ts`. -/
def DEFAULT_PAGE_SIZE : Nat := 200

/-- The counting wrapper built by the source around the cleaned query,
verbatim. -/
def countQueryStr (cleanQuery : Chars) : String :=
  "WITH user_query AS (" ++ chStr cleanQuery ++
    ") SELECT COUNT(*) as total FROM user_query"

/-- The LIMIT/OFFSET wrapper built by the source around the cleaned
query, verbatim, including the whitespace of the template literal. -/
def paginatedQueryStr (cleanQuery : Chars) (page : Nat) : String :=
  "WITH user_query AS (" ++ chStr cleanQuery ++ ") \n        SELECT * FROM user_query \n        LIMIT " ++
    Nat.repr DEFAULT_PAGE_SIZE ++ " \n        OFFSET " ++
    Nat.repr ((page - 1) * DEFAULT_PAGE_SIZE)

/-- The pagination block returned for non-aggregate queries. -/
structure PaginationState where
  page : Nat
  pageSize : Nat
  total : Nat
  totalPages : Nat
  hasMore : Bool
deriving DecidableEq, Repr

/-- The result of a successful execution: the returned rows, the row
count, and the pagination block (absent for aggregate queries). -/
structure QueryResult (α : Type) where
  rows : List α
  rowCount : Nat
  pagination : Option PaginationState
deriving Repr

/-- The observable outcome of one `executeQuery` call: which SQL texts
were sent to the database, in order, and the result or the thrown
error message. -/
structure ExecOutcome (α : Type) where
  sent : List String
  result : Except String (QueryResult α)
deriving Repr

/-- Model of `executeQuery` of `src/lib/db-client.ts`.  The parameter
`rows` is the result set the database yields for the cleaned statement;
the wrapper semantics gives `rows.length` for the counting CTE and the
OFFSET/LIMIT window of `rows` for the paginated CTE.  `page` is the
1-based page number (the source default is 1). -/
def executeQuery (α : Type) (rows : List α) (query : String) (page : Nat) :
    ExecOutcome α :=
  let cleanQuery := cleanSql query.data
  let normalizedQuery := toLowerCh cleanQuery
  if hasWriteOperation normalizedQuery then
    { sent := [], result := .error writeOpErrorMsg }
  else if isAggregateQuery normalizedQuery then
    { sent := [chStr cleanQuery],
      result := .ok { rows := rows, rowCount := rows.length, pagination := none } }
  else
    let total := rows.length
    let pageRows := (rows.drop ((page - 1) * DEFAULT_PAGE_SIZE)).take DEFAULT_PAGE_SIZE
    { sent := [countQueryStr cleanQuery, paginatedQueryStr cleanQuery page],
      result := .ok
        { rows := pageRows
          rowCount := pageRows.length
          pagination := some
            { page := page
              pageSize := DEFAULT_PAGE_SIZE
              total := total
              totalPages := (total + (DEFAULT_PAGE_SIZE - 1)) / DEFAULT_PAGE_SIZE
              hasMore := decide (page * DEFAULT_PAGE_SIZE < total) } } }

/-! ## Guard lemmas -/

/-- If the normalized query starts with a disallowed keyword plus
space, the guard fires. -/
theorem hasWriteOperation_of_startsBranch (nq : Chars)
    (h : startsWithWriteOp nq = true) : hasWriteOperation nq = true := by
  rcases List.any_eq_true.mp h with ⟨op, hmem, hop⟩
  exact List.any_eq_true.mpr ⟨op, hmem, by simp [hop]⟩

/-- If the CTE scan finds a disallowed keyword, the guard fires (the
scan result is checked in every iteration of the keyword loop, so any
keyword, for instance the first, witnesses it). -/
theorem hasWriteOperation_of_cteBranch (nq : Chars)
    (h : cteHasWriteOp nq = true) : hasWriteOperation nq = true := by
  refine List.any_eq_true.mpr ⟨"delete".data, ?_, ?_⟩
  · simp [writeOperations]
  · simp [h]

/-- **C1.**  Every raw SQL string whose cleaned, lower-cased form starts
with one of the sixteen guarded keywords followed by a space is rejected
by the Read-Only Guard of `executeQuery` with the write-operation error,
and nothing is sent to the database. -/
theorem executeQuery_rejects_write_prefix (rows : List Nat) (q : String) (page : Nat)
    (h : startsWithWriteOp (normalizeQuery q) = true) :
    executeQuery Nat rows q page = { sent := [], result := .error writeOpErrorMsg } := by
  have hw := hasWriteOperation_of_startsBranch _ h
  simp only [normalizeQuery] at hw
  simp [executeQuery, hw]

/-- Witness for C1 at the concrete input of the spec:
`DELETE FROM users` is rejected and never sent. -/
theorem executeQuery_rejects_write_prefix_witness :
    startsWithWriteOp (normalizeQuery "DELETE FROM users") = true ∧
    executeQuery Nat [] "DELETE FROM users" 1 =
      { sent := [], result := .error writeOpErrorMsg } :=
  ⟨by decide, executeQuery_rejects_write_prefix [] "DELETE FROM users" 1 (by decide)⟩

/-- **C2.**  Every SQL string in which the CTE scan of the guard (the
`with ` search followed by the CTE-pattern regex) finds a body starting
with a guarded keyword plus space is rejected before anything reaches
the database; and the plain statement `  select 1` is accepted, executed
through the two pagination wrappers, and its rows are returned. -/
theorem executeQuery_rejects_cte_write (rows : List Nat) (q : String) (page : Nat)
    (h : cteHasWriteOp (normalizeQuery q) = true) :
    executeQuery Nat rows q page = { sent := [], result := .error writeOpErrorMsg } ∧
    executeQuery Nat [0] "  select 1" 1 =
      { sent := [countQueryStr "select 1".data, paginatedQueryStr "select 1".data 1],
        result := .ok { rows := [0], rowCount := 1,
                        pagination := some { page := 1, pageSize := 200, total := 1,
                                             totalPages := 1, hasMore := false } } } := by
  constructor
  · have hw := hasWriteOperation_of_cteBranch _ h
    simp only [normalizeQuery] at hw
    simp [executeQuery, hw]
  · rfl

/-- Witness for C2 at the concrete input of the spec: the statement
`WITH x AS (DELETE FROM t RETURNING *) SELECT * FROM x` is caught by
the CTE scan and rejected. -/
theorem executeQuery_rejects_cte_write_witness :
    cteHasWriteOp (normalizeQuery "WITH x AS (DELETE FROM t RETURNING *) SELECT * FROM x") = true ∧
    (executeQuery Nat [] "WITH x AS (DELETE FROM t RETURNING *) SELECT * FROM x" 3 =
      { sent := [], result := .error writeOpErrorMsg } ∧
    executeQuery Nat [0] "  select 1" 1 =
      { sent := [countQueryStr "select 1".data, paginatedQueryStr "select 1".data 1],
        result := .ok { rows := [0], rowCount := 1,
                        pagination := some { page := 1, pageSize := 200, total := 1,
                                             totalPages := 1, hasMore := false } } }) :=
  ⟨by decide,
   executeQuery_rejects_cte_write [] "WITH x AS (DELETE FROM t RETURNING *) SELECT * FROM x" 3
     (by decide)⟩

/-! ## Pagination -/

/-- Ceiling of `n / DEFAULT_PAGE_SIZE`, the number of pages a result
set of `n` rows occupies (also the `totalPages` formula of the source). -/
def pageCeil (n : Nat) : Nat := (n + (DEFAULT_PAGE_SIZE - 1)) / DEFAULT_PAGE_SIZE

theorem mul_lt_of_lt_pageCeil {p n : Nat} (h : p < pageCeil n) :
    p * DEFAULT_PAGE_SIZE < n := by
  unfold pageCeil DEFAULT_PAGE_SIZE at *
  have hd := Nat.div_add_mod (n + 199) 200
  have hm : (n + 199) % 200 < 200 := Nat.mod_lt _ (by norm_num)
  omega

theorem le_pageCeil_mul (n : Nat) : n ≤ pageCeil n * DEFAULT_PAGE_SIZE := by
  unfold pageCeil DEFAULT_PAGE_SIZE
  have hd := Nat.div_add_mod (n + 199) 200
  have hm : (n + 199) % 200 < 200 := Nat.mod_lt _ (by norm_num)
  omega

/-- **C4.**  For a non-aggregate statement that passes the guard, with a
result set of `N` rows and 1-based page `p`: the executor sends exactly
the counting wrapper around the cleaned statement and the LIMIT/OFFSET
wrapper; the returned pagination block carries `total = N`,
`pageSize = 200` and `hasMore` computed as `p * 200 < N`; every page
`p < ⌈N/200⌉` returns exactly 200 rows with `hasMore = true`, and page
`p = ⌈N/200⌉` returns the remaining `N - (p-1)·200` rows with
`hasMore = false`. -/
theorem executeQuery_pagination (rows : List Nat) (q : String) (page : Nat)
    (hguard : hasWriteOperation (normalizeQuery q) = false)
    (hagg : isAggregateQuery (normalizeQuery q) = false)
    (hpage : 1 ≤ page) :
    (executeQuery Nat rows q page).sent =
      [countQueryStr (cleanSql q.data), paginatedQueryStr (cleanSql q.data) page] ∧
    ∃ res pg, (executeQuery Nat rows q page).result = .ok res ∧
      res.pagination = some pg ∧
      pg.total = rows.length ∧ pg.pageSize = DEFAULT_PAGE_SIZE ∧ pg.page = page ∧
      pg.hasMore = decide (page * DEFAULT_PAGE_SIZE < rows.length) ∧
      (page < pageCeil rows.length →
        res.rows.length = DEFAULT_PAGE_SIZE ∧ pg.hasMore = true) ∧
      (page = pageCeil rows.length →
        res.rows.length = rows.length - (page - 1) * DEFAULT_PAGE_SIZE ∧
        pg.hasMore = false) := by
  simp only [normalizeQuery] at hguard hagg
  have hE : executeQuery Nat rows q page =
      { sent := [countQueryStr (cleanSql q.data), paginatedQueryStr (cleanSql q.data) page],
        result := .ok
          { rows := (rows.drop ((page - 1) * DEFAULT_PAGE_SIZE)).take DEFAULT_PAGE_SIZE
            rowCount := ((rows.drop ((page - 1) * DEFAULT_PAGE_SIZE)).take DEFAULT_PAGE_SIZE).length
            pagination := some
              { page := page, pageSize := DEFAULT_PAGE_SIZE, total := rows.length,
                totalPages := (rows.length + (DEFAULT_PAGE_SIZE - 1)) / DEFAULT_PAGE_SIZE,
                hasMore := decide (page * DEFAULT_PAGE_SIZE < rows.length) } } } := by
    simp [executeQuery, hguard, hagg]
  rw [hE]
  refine ⟨rfl, _, _, rfl, rfl, rfl, rfl, rfl, rfl, ?_, ?_⟩
  · intro hlt
    have h1 : page * DEFAULT_PAGE_SIZE < rows.length := mul_lt_of_lt_pageCeil hlt
    constructor
    · simp only [List.length_take, List.length_drop]
      unfold DEFAULT_PAGE_SIZE at *
      omega
    · simp [h1]
  · intro heq
    have h1 : rows.length ≤ page * DEFAULT_PAGE_SIZE := by
      rw [heq]; exact le_pageCeil_mul rows.length
    constructor
    · simp only [List.length_take, List.length_drop]
      unfold DEFAULT_PAGE_SIZE at *
      omega
    · simp only [decide_eq_false_iff_not]
      omega

/-- Witness for C4: a result set of 401 rows, page 2 of the three
pages. -/
theorem executeQuery_pagination_witness :
    (hasWriteOperation (normalizeQuery "select id from t") = false ∧
     isAggregateQuery (normalizeQuery "select id from t") = false ∧
     1 ≤ 2) ∧
    ((executeQuery Nat (List.replicate 401 0) "select id from t" 2).sent =
      [countQueryStr (cleanSql "select id from t".data),
       paginatedQueryStr (cleanSql "select id from t".data) 2] ∧
    ∃ res pg,
      (executeQuery Nat (List.replicate 401 0) "select id from t" 2).result = .ok res ∧
      res.pagination = some pg ∧
      pg.total = (List.replicate 401 (0 : Nat)).length ∧
      pg.pageSize = DEFAULT_PAGE_SIZE ∧ pg.page = 2 ∧
      pg.hasMore = decide (2 * DEFAULT_PAGE_SIZE < (List.replicate 401 (0 : Nat)).length) ∧
      (2 < pageCeil (List.replicate 401 (0 : Nat)).length →
        res.rows.length = DEFAULT_PAGE_SIZE ∧ pg.hasMore = true) ∧
      (2 = pageCeil (List.replicate 401 (0 : Nat)).length →
        res.rows.length = (List.replicate 401 (0 : Nat)).length - (2 - 1) * DEFAULT_PAGE_SIZE ∧
        pg.hasMore = false)) :=
  ⟨⟨by decide, by decide, by decide⟩,
   executeQuery_pagination (List.replicate 401 0) "select id from t" 2
     (by decide) (by decide) (by decide)⟩

/-- Counterexample for C5 as frozen: the statement
`DELETE FROM t WHERE count > 0` matches the aggregate regex, yet
`executeQuery` does not execute it at all — the Read-Only Guard rejects
it first, so nothing is returned and nothing is sent. -/
theorem aggregate_claim_counterexample :
    isAggregateQuery (normalizeQuery "DELETE FROM t WHERE count > 0") = true ∧
    executeQuery Nat [1, 2, 3] "DELETE FROM t WHERE count > 0" 1 =
      { sent := [], result := .error writeOpErrorMsg } :=
  ⟨by decide, rfl⟩

/-- **C5 (amended).**  Every cleaned statement that passes the
Read-Only Guard and matches the aggregate regex is executed exactly
once, unwrapped, and all rows come back with a null pagination block,
regardless of the size of the result set. -/
theorem executeQuery_aggregate_unpaged (rows : List Nat) (q : String) (page : Nat)
    (hguard : hasWriteOperation (normalizeQuery q) = false)
    (hagg : isAggregateQuery (normalizeQuery q) = true) :
    executeQuery Nat rows q page =
      { sent := [chStr (cleanSql q.data)],
        result := .ok { rows := rows, rowCount := rows.length, pagination := none } } := by
  simp only [normalizeQuery] at hguard hagg
  simp [executeQuery, hguard, hagg]

/-- Witness for C5: an aggregate statement, 3 rows, page argument 7
(ignored). -/
theorem executeQuery_aggregate_unpaged_witness :
    (hasWriteOperation (normalizeQuery "select count(*) from users group by city") = false ∧
     isAggregateQuery (normalizeQuery "select count(*) from users group by city") = true) ∧
    executeQuery Nat [1, 2, 3] "select count(*) from users group by city" 7 =
      { sent := [chStr (cleanSql "select count(*) from users group by city".data)],
        result := .ok { rows := [1, 2, 3], rowCount := 3, pagination := none } } :=
  ⟨⟨by decide, by decide⟩,
   executeQuery_aggregate_unpaged [1, 2, 3] "select count(*) from users group by city" 7
     (by decide) (by decide)⟩

/-! ## The raw `POST /execute-sql` endpoint (`pages/api/execute-sql.ts`)

The handler rejects non-POST methods with 405 and requests missing
`query` or `dbConfig` with 400; otherwise it connects and passes the
request query verbatim to the database driver.  It contains no call to
any guard.  The database driver is abstracted as a function from the
SQL text to a result or an error. -/

/-- The HTTP status and success flag of the JSON reply. -/
structure SqlEndpointReply where
  status : Nat
  success : Bool
deriving DecidableEq, Repr

/-- Reply plus the SQL texts that reached the database connection. -/
structure SqlEndpointOutcome where
  reply : SqlEndpointReply
  sent : List String
deriving DecidableEq, Repr

/-- Model of the default export of `pages/api/execute-sql.ts`.  The
`query` field of the body is `none` when absent; the JS truthiness
check also rejects an empty string.  `hasDbConfig` abstracts the
truthiness of the `dbConfig` field. -/
def executeSqlHandler (db : String → Except String (List Nat))
    (method : String) (query : Option String) (hasDbConfig : Bool) :
    SqlEndpointOutcome :=
  if method == "POST" then
    match query with
    | none => { reply := { status := 400, success := false }, sent := [] }
    | some q =>
      if q == "" || !hasDbConfig then
        { reply := { status := 400, success := false }, sent := [] }
      else
        match db q with
        | .ok _ => { reply := { status := 200, success := true }, sent := [q] }
        | .error _ => { reply := { status := 500, success := false }, sent := [q] }
  else { reply := { status := 405, success := false }, sent := [] }

/-- Counterexample for C3 as frozen: `DELETE FROM users` starts with a
guarded write keyword, yet the `POST /execute-sql` handler executes it
— the reply is a success and the statement reaches the database
connection. -/
theorem executeSql_guard_counterexample :
    startsWithWriteOp (toLowerCh "DELETE FROM users".data) = true ∧
    executeSqlHandler (fun _ => .ok []) "POST" (some "DELETE FROM users") true =
      { reply := { status := 200, success := true }, sent := ["DELETE FROM users"] } :=
  ⟨by decide, rfl⟩

/-- **C3 (amended).**  The `POST /execute-sql` handler applies no
Read-Only Guard at all: every POST request with a non-empty query and a
database config passes the query verbatim to the database connection,
whatever the query text is. -/
theorem executeSql_no_guard (db : String → Except String (List Nat)) (q : String)
    (h : (q == "") = false) :
    (executeSqlHandler db "POST" (some q) true).sent = [q] := by
  cases hdb : db q with
  | ok v => simp [executeSqlHandler, h, hdb]
  | error e => simp [executeSqlHandler, h, hdb]

/-- Witness for the amended C3: the write statement reaches the
database. -/
theorem executeSql_no_guard_witness :
    (("DELETE FROM users" == "") = false) ∧
    (executeSqlHandler (fun _ => .ok [7]) "POST" (some "DELETE FROM users") true).sent =
      ["DELETE FROM users"] :=
  ⟨by decide, executeSql_no_guard (fun _ => .ok [7]) "DELETE FROM users" (by decide)⟩

/-! ## The `POST /query` route (`src/app/api/query/execute/route.ts`)

After classification, the route generates SQL with the LLM; if the
returned string starts with the sentinel `ERROR:` it throws, and the
surrounding catch converts the thrown message into the uniform
failure response (with a best-effort suggestion, defaulting when
empty); only otherwise is the string handed to `executeQuery`.  The
LLM calls are abstracted by their results (`queryType`, the generated
`sqlQuery`) and the suggestion oracle by a function. -/

/-- The fields of the JSON response relevant to the sentinel claim. -/
structure ApiResponse where
  success : Bool
  status : Nat
  rtype : Option String
  errorMsg : Option String
  suggestion : Option String
deriving DecidableEq, Repr

/-- The response together with the strings handed to `executeQuery` and
the SQL texts that reached the database. -/
structure PostQueryOutcome where
  response : ApiResponse
  passedToExecute : List String
  dbSent : List String
deriving DecidableEq, Repr

/-- Model of the `suggestion or default` fallback of the route. -/
def orDefaultSuggestion (s : String) : String :=
  if s == "" then "No suggestion available" else s

/-- Model of the query-processing branch of the POST handler of
`route.ts`: explanation and input-required branches return early;
otherwise the sentinel check runs before any execution, and the catch
converts error messages into the uniform failure response. -/
def postQueryHandler (queryType : String) (hasInputs : Bool) (sqlQuery : String)
    (suggest : String → String) (rows : List Nat) (page : Nat) : PostQueryOutcome :=
  if queryType == "NEEDS_EXPLANATION" then
    { response := { success := true, status := 200, rtype := some "explanation",
                    errorMsg := none, suggestion := none },
      passedToExecute := [], dbSent := [] }
  else if queryType == "NEEDS_INPUT" && !hasInputs then
    { response := { success := true, status := 200, rtype := some "input_required",
                    errorMsg := none, suggestion := none },
      passedToExecute := [], dbSent := [] }
  else if startsWithCh "ERROR:".data sqlQuery.data then
    { response := { success := false, status := 500, rtype := none,
                    errorMsg := some sqlQuery,
                    suggestion := some (orDefaultSuggestion (suggest sqlQuery)) },
      passedToExecute := [], dbSent := [] }
  else
    let out := executeQuery Nat rows sqlQuery page
    match out.result with
    | .ok _ =>
      { response := { success := true, status := 200, rtype := some "query",
                      errorMsg := none, suggestion := none },
        passedToExecute := [sqlQuery], dbSent := out.sent }
    | .error e =>
      { response := { success := false, status := 500, rtype := none,
                      errorMsg := some e,
                      suggestion := some (orDefaultSuggestion (suggest e)) },
        passedToExecute := [sqlQuery], dbSent := out.sent }

/-- **C6.**  Whenever the generated SQL starts with the sentinel
`ERROR:` (and the request reached SQL generation at all), the POST
handler answers with the uniform failure response carrying the sentinel
string as the error and a suggestion, and hands nothing to
`executeQuery` — in particular nothing reaches the database. -/
theorem postQuery_sentinel_never_executed
    (queryType : String) (hasInputs : Bool) (sqlQuery : String)
    (suggest : String → String) (rows : List Nat) (page : Nat)
    (hexp : (queryType == "NEEDS_EXPLANATION") = false)
    (hinp : (queryType == "NEEDS_INPUT" && !hasInputs) = false)
    (hsent : startsWithCh "ERROR:".data sqlQuery.data = true) :
    postQueryHandler queryType hasInputs sqlQuery suggest rows page =
      { response := { success := false, status := 500, rtype := none,
                      errorMsg := some sqlQuery,
                      suggestion := some (orDefaultSuggestion (suggest sqlQuery)) },
        passedToExecute := [], dbSent := [] } := by
  simp [postQueryHandler, hexp, hinp, hsent]

/-- Witness for C6: a missing-input sentinel produced during SQL
generation is surfaced, not executed. -/
theorem postQuery_sentinel_never_executed_witness :
    (("NEEDS_QUERY" == "NEEDS_EXPLANATION") = false ∧
     ("NEEDS_QUERY" == "NEEDS_INPUT" && !false) = false ∧
     startsWithCh "ERROR:".data "ERROR: Missing required input: a start date".data = true) ∧
    postQueryHandler "NEEDS_QUERY" false "ERROR: Missing required input: a start date"
        (fun _ => "Provide a start date") [] 1 =
      { response := { success := false, status := 500, rtype := none,
                      errorMsg := some "ERROR: Missing required input: a start date",
                      suggestion := some (orDefaultSuggestion "Provide a start date") },
        passedToExecute := [], dbSent := [] } :=
  ⟨⟨by decide, by decide, by decide⟩,
   postQuery_sentinel_never_executed "NEEDS_QUERY" false
     "ERROR: Missing required input: a start date" (fun _ => "Provide a start date") [] 1
     (by decide) (by decide) (by decide)⟩

/-! ## Input validation (`src/lib/llm.ts`, `identifyRequiredInputs`)

The LLM reply is cleaned of markdown fencing and `JSON.parse`d; a
syntax failure is reported as its own message.  A parsed array is then
validated element by element, in order: first missing/empty fields
(destructured as `name`, `description`, `type`, `example`), then the
type whitelist, then the date-example format; the first failure throws.
The parsed value is abstracted: a parse can fail, yield a non-array, or
yield an array of records whose four relevant fields are optional
strings (absent ≙ `none`; JS truthiness also rejects the empty
string). -/

/-- One element of the parsed input array.  The source destructures the
fields `name`, `description`, `type`, `example`; the last is named
`exampleVal` here because `example` is a Lean keyword. -/
structure RawInput where
  name : Option String
  description : Option String
  type : Option String
  exampleVal : Option String
deriving DecidableEq, Repr

/-- JS falsiness of an optional string field: absent or empty. -/
def falsyField (o : Option String) : Bool := o == none || o == some ""

/-- The `YYYY-MM-DD` anchored regex: exactly four digits, a dash, two
digits, a dash, two digits. -/
def isDateExample : Chars → Bool
  | [y1, y2, y3, y4, d1, m1, m2, d2, a1, a2] =>
    y1.isDigit && y2.isDigit && y3.isDigit && y4.isDigit && d1 = '-' &&
      m1.isDigit && m2.isDigit && d2 = '-' && a1.isDigit && a2.isDigit
  | _ => false

def invalidJsonMsg : String := "Invalid JSON response from LLM"

def notArrayMsg : String := "Invalid response format from LLM: expected an array of inputs"

def missingFieldsMsg (i : Nat) : String :=
  "Input at index " ++ Nat.repr i ++ " is missing required fields"

def invalidTypeMsg (t n : String) : String :=
  "Invalid type \"" ++ t ++ "\" for input \"" ++ n ++ "\""

def invalidDateMsg (n : String) : String :=
  "Invalid date format for input \"" ++ n ++ "\". Expected YYYY-MM-DD"

/-- The missing/empty-fields check of the source. -/
def inputMissingFields (inp : RawInput) : Bool :=
  falsyField inp.name || falsyField inp.description ||
    falsyField inp.type || falsyField inp.exampleVal

/-- The type-whitelist check of the source. -/
def inputTypeInvalid (inp : RawInput) : Bool :=
  !(["text", "number", "date"].contains (inp.type.getD ""))

/-- The date-format check of the source. -/
def inputDateInvalid (inp : RawInput) : Bool :=
  inp.type == some "date" && !isDateExample (inp.exampleVal.getD "").data

/-- An element that passes all three checks. -/
def elemOk (inp : RawInput) : Bool :=
  !inputMissingFields inp && !inputTypeInvalid inp && !inputDateInvalid inp

/-- The element-wise validation loop (`parsedInputs.forEach`), with the
running index; the first failing check throws its message. -/
def validateInputsFrom : Nat → List RawInput → Except String Unit
  | _, [] => .ok ()
  | i, inp :: rest =>
    if inputMissingFields inp then .error (missingFieldsMsg i)
    else if inputTypeInvalid inp then
      .error (invalidTypeMsg (inp.type.getD "") (inp.name.getD ""))
    else if inputDateInvalid inp then .error (invalidDateMsg (inp.name.getD ""))
    else validateInputsFrom (i + 1) rest

/-- The three possible shapes of the cleaned, parsed LLM reply. -/
inductive LlmParseOutcome where
  | syntaxError
  | notArray
  | array (inputs : List RawInput)

/-- The validation portion of `identifyRequiredInputs`: a JSON syntax
failure and a non-array reply have their own messages, distinct from
every schema-validation message; an array is validated element-wise and
returned when clean. -/
def identifyRequiredInputsResult : LlmParseOutcome → Except String (List RawInput)
  | .syntaxError => .error invalidJsonMsg
  | .notArray => .error notArrayMsg
  | .array xs => (validateInputsFrom 0 xs).map fun _ => xs

/-- Validation steps over a clean prefix: the loop walks past elements
that pass all three checks, advancing the index. -/
theorem validateInputsFrom_append (pre l : List RawInput) (i : Nat)
    (h : pre.all elemOk = true) :
    validateInputsFrom i (pre ++ l) = validateInputsFrom (i + pre.length) l := by
  induction pre generalizing i with
  | nil => simp [validateInputsFrom]
  | cons p ps ih =>
    rw [List.all_cons, Bool.and_eq_true] at h
    obtain ⟨hp, hps⟩ := h
    have h1 : inputMissingFields p = false := by
      revert hp; unfold elemOk; cases inputMissingFields p <;> simp
    have h2 : inputTypeInvalid p = false := by
      revert hp; unfold elemOk; cases inputTypeInvalid p <;> simp
    have h3 : inputDateInvalid p = false := by
      revert hp; unfold elemOk; cases inputDateInvalid p <;> simp
    simp only [List.cons_append, validateInputsFrom, h1, h2, h3, if_false,
      Bool.false_eq_true, List.append_eq]
    rw [ih _ hps]
    congr 1
    simp [List.length_cons]
    omega

/-- Two strings differing at some position differ. -/
theorem stringNeOfCharAt (s t : String) (n : Nat)
    (h : s.data[n]? ≠ t.data[n]?) : s ≠ t := by
  intro he; exact h (congrArg (fun u : String => u.data[n]?) he)

theorem invalidJsonMsg_ne_missingFieldsMsg (i : Nat) :
    invalidJsonMsg ≠ missingFieldsMsg i := by
  refine stringNeOfCharAt _ _ 2 ?_
  intro h2
  simp only [invalidJsonMsg, missingFieldsMsg, String.data_append] at h2
  rw [List.getElem?_append_left (by simp), List.getElem?_append_left (by simp)] at h2
  exact absurd h2 (by decide)

theorem invalidJsonMsg_ne_invalidTypeMsg (t n : String) :
    invalidJsonMsg ≠ invalidTypeMsg t n := by
  refine stringNeOfCharAt _ _ 8 ?_
  intro h2
  simp only [invalidJsonMsg, invalidTypeMsg, String.data_append] at h2
  rw [List.getElem?_append_left (by simp), List.getElem?_append_left (by simp),
    List.getElem?_append_left (by simp), List.getElem?_append_left (by simp)] at h2
  exact absurd h2 (by decide)

theorem invalidJsonMsg_ne_invalidDateMsg (n : String) :
    invalidJsonMsg ≠ invalidDateMsg n := by
  refine stringNeOfCharAt _ _ 8 ?_
  intro h2
  simp only [invalidJsonMsg, invalidDateMsg, String.data_append] at h2
  rw [List.getElem?_append_left (by simp), List.getElem?_append_left (by simp)] at h2
  exact absurd h2 (by decide)

/-- **C7.**  Element-wise validation in `identifyRequiredInputs`:
a first offending element missing (or carrying an empty) `name`,
`description`, `type` or `example` field yields the error naming its
index; a first offending element whose type is outside the whitelist
yields the invalid-type error; a first offending element of type
`date` whose example fails the `YYYY-MM-DD` regex yields the
date-format error; and a JSON-syntax failure is reported with its own
message, distinct from the non-array message and from every
schema-validation message. -/
theorem identifyRequiredInputs_validation :
    (∀ (pre : List RawInput) (inp : RawInput) (rest : List RawInput),
      pre.all elemOk = true → inputMissingFields inp = true →
      identifyRequiredInputsResult (.array (pre ++ inp :: rest)) =
        .error (missingFieldsMsg pre.length)) ∧
    (∀ (pre : List RawInput) (inp : RawInput) (rest : List RawInput),
      pre.all elemOk = true → inputMissingFields inp = false →
      inputTypeInvalid inp = true →
      identifyRequiredInputsResult (.array (pre ++ inp :: rest)) =
        .error (invalidTypeMsg (inp.type.getD "") (inp.name.getD ""))) ∧
    (∀ (pre : List RawInput) (inp : RawInput) (rest : List RawInput),
      pre.all elemOk = true → inputMissingFields inp = false →
      inp.type = some "date" →
      isDateExample (inp.exampleVal.getD "").data = false →
      identifyRequiredInputsResult (.array (pre ++ inp :: rest)) =
        .error (invalidDateMsg (inp.name.getD ""))) ∧
    (identifyRequiredInputsResult .syntaxError = .error invalidJsonMsg ∧
      invalidJsonMsg ≠ notArrayMsg ∧
      (∀ i, invalidJsonMsg ≠ missingFieldsMsg i) ∧
      (∀ t n, invalidJsonMsg ≠ invalidTypeMsg t n) ∧
      (∀ n, invalidJsonMsg ≠ invalidDateMsg n)) := by
  refine ⟨?_, ?_, ?_, rfl, by decide, invalidJsonMsg_ne_missingFieldsMsg,
    invalidJsonMsg_ne_invalidTypeMsg, invalidJsonMsg_ne_invalidDateMsg⟩
  · intro pre inp rest hpre hbad
    show Except.map (fun _ => pre ++ inp :: rest)
        (validateInputsFrom 0 (pre ++ inp :: rest)) = _
    rw [validateInputsFrom_append pre (inp :: rest) 0 hpre]
    simp [validateInputsFrom, Except.map, hbad]
  · intro pre inp rest hpre hmf hty
    show Except.map (fun _ => pre ++ inp :: rest)
        (validateInputsFrom 0 (pre ++ inp :: rest)) = _
    rw [validateInputsFrom_append pre (inp :: rest) 0 hpre]
    simp [validateInputsFrom, Except.map, hmf, hty]
  · intro pre inp rest hpre hmf hdty hdex
    have hty : inputTypeInvalid inp = false := by
      simp [inputTypeInvalid, hdty]
    have hdate : inputDateInvalid inp = true := by
      simp [inputDateInvalid, hdty, hdex]
    show Except.map (fun _ => pre ++ inp :: rest)
        (validateInputsFrom 0 (pre ++ inp :: rest)) = _
    rw [validateInputsFrom_append pre (inp :: rest) 0 hpre]
    simp [validateInputsFrom, Except.map, hmf, hty, hdate]

/-! ## Conversation context (`src/lib/chatHistory.ts`, `ContextManager`)

`addQueryToContext` builds a `QueryContext` record for the attempt
(success or failure alike), `unshift`s it onto `recentQueries` and
`pop`s the last entry when the length exceeds the bound of 10.  Only
the `recentQueries` list is modelled; the derived table/column sets the
method also updates do not influence the claims. -/

/-- One recorded query attempt (the fields relevant to the claims). -/
structure QueryContext where
  query : String
  sqlQuery : String
  timestamp : Nat
  tables : List String
  success : Bool
deriving DecidableEq, Repr

/-- The bound `MAX_RECENT_QUERIES` of the source. -/
def MAX_RECENT_QUERIES : Nat := 10

/-- Model of the `recentQueries` update in `addQueryToContext`:
`unshift` then conditional `pop`. -/
def addQueryToContext (qc : QueryContext) (recent : List QueryContext) :
    List QueryContext :=
  let r := qc :: recent
  if MAX_RECENT_QUERIES < r.length then r.dropLast else r

/-- **C8.**  Starting from any state within the bound (as every state
reachable from the empty initial state is), one `addQueryToContext`
call keeps at most 10 entries, puts the new record — successful or
failed alike — at the head, and, exactly when the list was full, evicts
the entry at the tail and nothing else. -/
theorem addQueryToContext_bounded (qc : QueryContext) (recent : List QueryContext)
    (hinv : recent.length ≤ MAX_RECENT_QUERIES) :
    (addQueryToContext qc recent).length ≤ MAX_RECENT_QUERIES ∧
    (addQueryToContext qc recent).head? = some qc ∧
    (recent.length < MAX_RECENT_QUERIES → addQueryToContext qc recent = qc :: recent) ∧
    (recent.length = MAX_RECENT_QUERIES →
      addQueryToContext qc recent = qc :: recent.dropLast) := by
  unfold addQueryToContext
  rcases Nat.lt_or_ge recent.length MAX_RECENT_QUERIES with hlt | hge
  · rw [if_neg (by simp [List.length_cons]; omega)]
    exact ⟨by simp [List.length_cons]; omega, rfl, fun _ => rfl, fun he => by omega⟩
  · have heq : recent.length = MAX_RECENT_QUERIES := le_antisymm hinv hge
    rw [if_pos (by simp [List.length_cons]; omega)]
    have hne : qc :: recent ≠ [] := by simp
    constructor
    · simp [List.length_dropLast, List.length_cons]; omega
    constructor
    · rcases recent with _ | ⟨r, rs⟩
      · simp [MAX_RECENT_QUERIES] at heq
      · simp [List.dropLast]
    constructor
    · intro h; omega
    · intro _
      rcases recent with _ | ⟨r, rs⟩
      · simp [MAX_RECENT_QUERIES] at heq
      · simp [List.dropLast]

/-- Witness for C8: a full history of ten entries receives an eleventh
(failed) attempt; the oldest entry is evicted. -/
theorem addQueryToContext_bounded_witness :
    ((List.range 10).map fun i =>
        QueryContext.mk "q" "select 1" i [] true).length ≤ MAX_RECENT_QUERIES ∧
    ((addQueryToContext (QueryContext.mk "new" "select 2" 99 [] false)
        ((List.range 10).map fun i => QueryContext.mk "q" "select 1" i [] true)).length
          ≤ MAX_RECENT_QUERIES ∧
     (addQueryToContext (QueryContext.mk "new" "select 2" 99 [] false)
        ((List.range 10).map fun i => QueryContext.mk "q" "select 1" i [] true)).head?
          = some (QueryContext.mk "new" "select 2" 99 [] false) ∧
     (((List.range 10).map fun i => QueryContext.mk "q" "select 1" i [] true).length
          < MAX_RECENT_QUERIES →
       addQueryToContext (QueryContext.mk "new" "select 2" 99 [] false)
          ((List.range 10).map fun i => QueryContext.mk "q" "select 1" i [] true)
         = QueryContext.mk "new" "select 2" 99 [] false ::
             (List.range 10).map fun i => QueryContext.mk "q" "select 1" i [] true) ∧
     (((List.range 10).map fun i => QueryContext.mk "q" "select 1" i [] true).length
          = MAX_RECENT_QUERIES →
       addQueryToContext (QueryContext.mk "new" "select 2" 99 [] false)
          ((List.range 10).map fun i => QueryContext.mk "q" "select 1" i [] true)
         = QueryContext.mk "new" "select 2" 99 [] false ::
             ((List.range 10).map fun i =>
                 QueryContext.mk "q" "select 1" i [] true).dropLast)) :=
  ⟨by decide,
   addQueryToContext_bounded (QueryContext.mk "new" "select 2" 99 [] false)
     ((List.range 10).map fun i => QueryContext.mk "q" "select 1" i [] true)
     (by decide)⟩

/-! ## Relevance scoring (`chatHistory.ts`, `findRelevantPreviousContext`)

The base score adds one point per shared lowercase word and two points
per shared referenced table (both through JS `Set`s, modelled by
deduplicating the current-side list); the score is then multiplied by
1.5 when the prior query succeeded and by one plus the recency decay,
which is `1 - (now - timestamp)/hour` clamped at zero from below (so
the factor lies in `[1, 2]` for past timestamps and the clamp caps the
decay's reach at one hour).  JS numbers are modelled by `ℚ`. -/

/-- Shared-element count between the deduplicated current-side list and
the prior-side list (iteration over a JS `Set` with a membership test). -/
def overlapCount (current prev : List String) : Nat :=
  (current.dedup.filter fun w => prev.contains w).length

/-- The additive base score: one per shared word, two per shared table. -/
def baseScore (curWords prevWords curTables prevTables : List String) : Nat :=
  overlapCount curWords prevWords + 2 * overlapCount curTables prevTables

/-- One millisecond-denominated hour, the decay window of the source. -/
def hourMs : ℚ := 1000 * 60 * 60

/-- The recency multiplier: one plus the clamped linear decay. -/
def recencyFactor (now ts : ℚ) : ℚ := 1 + max 0 (1 - (now - ts) / hourMs)

/-- The full score of one prior query, as computed by the source:
base, times 1.5 when successful, times the recency factor. -/
def queryScore (base : ℚ) (success : Bool) (now ts : ℚ) : ℚ :=
  (if success then base * (3 / 2) else base) * recencyFactor now ts

/-- The recency factor never falls below one. -/
theorem one_le_recencyFactor (now ts : ℚ) : 1 ≤ recencyFactor now ts := by
  unfold recencyFactor
  have h := le_max_left (0 : ℚ) (1 - (now - ts) / hourMs)
  linarith

/-- The recency factor is monotone in the timestamp: a more recent
prior query gets at least the factor of an older one. -/
theorem recencyFactor_mono (now t1 t2 : ℚ) (h : t2 ≤ t1) :
    recencyFactor now t2 ≤ recencyFactor now t1 := by
  unfold recencyFactor
  have h0 : (0 : ℚ) < hourMs := by norm_num [hourMs]
  have hdiv : (now - t1) / hourMs ≤ (now - t2) / hourMs :=
    (div_le_div_iff_of_pos_right h0).mpr (by linarith)
  have hmax : max 0 (1 - (now - t2) / hourMs) ≤ max 0 (1 - (now - t1) / hourMs) :=
    max_le_max (le_refl 0) (by linarith)
  linarith

/-- **C9.**  For two prior queries with the same word and table overlap
against the current query (hence the same base score), the one marked
successful and bearing the more recent timestamp scores at least as
high as the other: the success factor and the recency factor are both
monotone non-decreasing multipliers on the non-negative base. -/
theorem queryScore_success_recent_ge
    (curWords prevWords curTables prevTables : List String) (now t1 t2 : ℚ)
    (h : t2 ≤ t1) :
    queryScore (baseScore curWords prevWords curTables prevTables) false now t2 ≤
    queryScore (baseScore curWords prevWords curTables prevTables) true now t1 := by
  set b : ℚ := (baseScore curWords prevWords curTables prevTables : ℚ) with hb
  have hbase : 0 ≤ b := by rw [hb]; exact_mod_cast Nat.zero_le _
  have hf21 : recencyFactor now t2 ≤ recencyFactor now t1 := recencyFactor_mono now t1 t2 h
  have hf1 : 1 ≤ recencyFactor now t1 := one_le_recencyFactor now t1
  unfold queryScore
  simp only [if_true, if_false]
  calc b * recencyFactor now t2
      ≤ b * recencyFactor now t1 := mul_le_mul_of_nonneg_left hf21 hbase
    _ ≤ b * (3 / 2) * recencyFactor now t1 :=
        mul_le_mul_of_nonneg_right (by linarith) (by linarith)

/-- Witness for C9 at concrete inputs: one shared word, one shared
table, timestamps one hour apart. -/
theorem queryScore_success_recent_ge_witness :
    ((0 : ℚ) ≤ 3600000) ∧
    queryScore (baseScore ["show", "users"] ["count", "users"] ["users"] ["users"])
        false 7200000 0 ≤
      queryScore (baseScore ["show", "users"] ["count", "users"] ["users"] ["users"])
        true 7200000 3600000 :=
  ⟨by norm_num,
   queryScore_success_recent_ge ["show", "users"] ["count", "users"] ["users"] ["users"]
     7200000 3600000 0 (by norm_num)⟩

/-! ## Schema cache (`src/lib/schema-cache.ts`)

The cache key is the template string host, colon, port, slash,
database, slash, user; the password never enters it.  The cache itself
is a map from keys to entries with a five-minute expiry; it is modelled
as a function from keys to optional entries, and the expiry deletion of
`getCachedSchema` as the returned updated map. -/

/-- The connection config (`DatabaseConfig` of `src/lib/db.ts`). -/
structure DatabaseConfig where
  host : String
  port : Nat
  database : String
  user : String
  password : String
deriving DecidableEq, Repr

/-- One cached entry, with the schema abstracted to a type parameter. -/
structure CacheEntry (α : Type) where
  schema : α
  timestamp : Nat
  expiresAt : Nat

/-- The five-minute TTL of the source, in milliseconds. -/
def CACHE_EXPIRY_MS : Nat := 5 * 60 * 1000

/-- Model of `getCacheKey`: only host, port, database and user enter
the key. -/
def getCacheKey (c : DatabaseConfig) : String :=
  c.host ++ ":" ++ Nat.repr c.port ++ "/" ++ c.database ++ "/" ++ c.user

/-- Model of `cacheSchema`: store the schema under the config key with
the current time and expiry. -/
def cacheSchema (cache : String → Option (CacheEntry α)) (now : Nat)
    (c : DatabaseConfig) (schema : α) : String → Option (CacheEntry α) :=
  fun k =>
    if k == getCacheKey c then
      some { schema := schema, timestamp := now, expiresAt := now + CACHE_EXPIRY_MS }
    else cache k

/-- Model of `getCachedSchema`: the looked-up schema (when present and
unexpired) together with the possibly-updated cache (an expired entry
is deleted). -/
def getCachedSchema (cache : String → Option (CacheEntry α)) (now : Nat)
    (c : DatabaseConfig) :
    Option α × (String → Option (CacheEntry α)) :=
  let key := getCacheKey c
  match cache key with
  | none => (none, cache)
  | some e =>
    if e.expiresAt < now then
      (none, fun k => if k == key then none else cache k)
    else (some e.schema, cache)

/-- **C10.**  The schema cache key depends only on host, port, database
and user: a config differing only in the password yields the same key,
so a schema stored under one password is found by a lookup under any
other (within the TTL) — the password has no influence on cache storage
or lookup. -/
theorem getCacheKey_ignores_password (c : DatabaseConfig) (p : String)
    (cache : String → Option (CacheEntry Nat)) (now1 now2 : Nat) (schema : Nat)
    (httl : now2 ≤ now1 + CACHE_EXPIRY_MS) :
    getCacheKey { c with password := p } = getCacheKey c ∧
    (getCachedSchema (cacheSchema cache now1 c schema) now2
        { c with password := p }).1 = some schema := by
  constructor
  · rfl
  · show (getCachedSchema (cacheSchema cache now1 c schema) now2
      { c with password := p }).1 = some schema
    have hkey : getCacheKey { c with password := p } = getCacheKey c := rfl
    unfold getCachedSchema cacheSchema
    simp only [hkey, beq_self_eq_true, if_true]
    rw [if_neg (by omega)]

/-- Witness for C10: store under one password, read under another. -/
theorem getCacheKey_ignores_password_witness :
    (60000 ≤ 0 + CACHE_EXPIRY_MS) ∧
    (getCacheKey { host := "h", port := 5432, database := "d", user := "u",
                   password := "p2" } =
       getCacheKey { host := "h", port := 5432, database := "d", user := "u",
                     password := "p1" } ∧
     (getCachedSchema
        (cacheSchema (fun _ => none) 0
          { host := "h", port := 5432, database := "d", user := "u",
            password := "p1" } 42) 60000
        { host := "h", port := 5432, database := "d", user := "u",
          password := "p2" }).1 = some 42) :=
  ⟨by decide,
   getCacheKey_ignores_password
     { host := "h", port := 5432, database := "d", user := "u", password := "p1" }
     "p2" (fun _ => none) 0 60000 42 (by decide)⟩
